import Mathlib

/-!
Verification of the flight-board scraper core (`yyj_scraper.py`): the row
normalization loop `parse_flights`, the insert path `add_flights`, and the
reconciliation path `update_flights`.

Modelling conventions.

* A clock time parsed by `strptime` with format `%I:%M %p` is a 12-hour
  `ClockTime`.  A raw `.text.strip()` string is abstracted by `Txt`: it is
  either empty, a non-empty string that fails to parse as a clock time
  (`bad`), or a string parsing to a clock time (`time t`).
* Date labels are produced by `strftime("%a %b %d")` and re-read by
  `strptime` with default year 1900, a non-leap year; so a label carries
  exactly a month-day of a fixed 365-day calendar.  We represent it by its
  ordinal `0..364` (Jan 01 = 0, Dec 31 = 364).  Subtracting one day through
  the `strptime`/`strftime` round trip is the cyclic predecessor
  `(ord + 364) % 365`.
* A resolved `datetime` after `.replace(year=Y)` is the triple
  (year `Y`, month-day ordinal, minute of day); we linearize it as
  `Y * 525600 + ord * 1440 + minute` (525600 = 365 * 1440), which is an
  order-embedding of the lexicographic order on such triples and lets the
  year be recovered by division.  `.astimezone(timezone.utc)` interprets the
  naive value in the deployment site's timezone (a fixed standard offset of
  -480 minutes; DST variation is not modelled) and adds the offset's
  negation.
* Python exceptions are the `Except PyErr` monad; the dictionary built per
  row is a `Flight` record whose fields are `Option`s (a missing dictionary
  key is `none`).
* The MongoDB collection is a `Store` (a list of documents);
  `insert_many` appends and reports the inserted ids, `update_one` updates
  the first document matching the query and reports `modified_count`
  (0 when the `$set` value already equals the stored one).
-/

/-- A 12-hour clock time as parsed by `strptime` format `%I:%M %p`. -/
structure ClockTime where
  hour12 : Nat
  minute : Nat
  isPM : Bool
deriving DecidableEq, Repr

/-- Minute of day of a 12-hour clock time (`12:xx AM` is minute `xx`). -/
def ClockTime.minutes (c : ClockTime) : Nat :=
  (c.hour12 % 12) * 60 + c.minute + (if c.isPM then 720 else 0)

/-- Abstraction of a stripped text node: empty, non-empty but not a clock
time (so `strptime` raises `ValueError`), or a clock time. -/
inductive Txt where
  | empty : Txt
  | bad : Txt
  | time : ClockTime → Txt
deriving DecidableEq, Repr

/-- The fields of one board row as accessed by `parse_flights`:
`row.find("div")` text, the optional delay bubble's inner div texts,
the `ft-gate` cell text, the `span` text, the `td` cell texts, and the
row's class list.  `none` for an element lookup means the element is
absent (`.text` on it raises `AttributeError`). -/
structure Row where
  firstDivText : Option Txt
  bubbleDivs : Option (List Txt)
  gateTd : Option String
  spanText : Option String
  tds : List String
  classes : List String
deriving DecidableEq, Repr

/-- The per-row dictionary built by `parse_flights`; a `none` field is a
key absent from the dictionary. -/
structure Flight where
  gate : Option String
  airline : Option String
  src_dest : Option String
  flight_num : Option String
  actual_timestamp : Option Int
  scheduled_timestamp : Option Int
  type : Option String
deriving DecidableEq, Repr

/-- Python exceptions that can escape the per-row logic. -/
inductive PyErr where
  | attrErr : PyErr
  | indexErr : PyErr
  | valueErr : PyErr
  | keyErr : PyErr
deriving DecidableEq, Repr

instance {ε α : Type} [DecidableEq ε] [DecidableEq α] : DecidableEq (Except ε α) := fun x y =>
  match x, y with
  | .ok a, .ok b =>
    if h : a = b then .isTrue (by rw [h]) else .isFalse (fun hc => by cases hc; exact h rfl)
  | .error a, .error b =>
    if h : a = b then .isTrue (by rw [h]) else .isFalse (fun hc => by cases hc; exact h rfl)
  | .ok _, .error _ => .isFalse (fun hc => by cases hc)
  | .error _, .ok _ => .isFalse (fun hc => by cases hc)

/-- Fixed standard UTC offset, in minutes, of the deployment site
(Victoria, Pacific standard time). -/
def siteUtcOffsetMinutes : Int := -480

/-- The absolute instant produced by
`strptime(label + " " + time).replace(year=Y).astimezone(timezone.utc)`,
linearized over a 365-day year (see the module docstring). -/
def utcMinutes (year : Int) (ord : Nat) (c : ClockTime) : Int :=
  year * 525600 + (ord : Int) * 1440 + (c.minutes : Int) - siteUtcOffsetMinutes

/-- The calendar year a linearized instant falls in. -/
def tsYear (t : Int) : Int := t / 525600

/-- The clock time of the row's scheduled-time div, when it parses. -/
def rowSchedClock (r : Row) : Option ClockTime :=
  match r.firstDivText with
  | some (.time t) => some t
  | _ => none

/-- The clock time of the delay bubble's second div, when present and
parsing. -/
def rowActualClock (r : Row) : Option ClockTime :=
  match r.bubbleDivs with
  | some ds =>
    match ds[1]? with
    | some (Txt.time t) => some t
    | _ => none
  | none => none

/-- Whether the row renders a delay bubble with a non-empty second time
text (the truthiness test `if actual_time:` succeeds). -/
def rowHasSecondTime (r : Row) : Bool :=
  match r.bubbleDivs with
  | some ds =>
    match ds[1]? with
    | some (Txt.time _) => true
    | some Txt.bad => true
    | _ => false
  | none => false

/-- The bubble's shape lets `find_all("div")[1]` succeed (no
`IndexError`) and its text parse or be empty (no `ValueError`). -/
def bubbleOk : Option (List Txt) → Bool
  | none => true
  | some ds =>
    match ds[1]? with
    | some (Txt.time _) => true
    | some Txt.empty => true
    | _ => false

/-- A row that `parse_flights` turns into a record: the scheduled div
parses, the bubble (if any) is well shaped, gate and carrier span exist,
and there are at least three `td` cells. -/
def wfRow (r : Row) : Bool :=
  (rowSchedClock r).isSome && bubbleOk r.bubbleDivs &&
    r.gateTd.isSome && r.spanText.isSome && decide (3 ≤ r.tds.length)

/-- The bubble, if present, has a second div, so `find_all("div")[1]`
succeeds. -/
def bubbleShape : Option (List Txt) → Bool
  | none => true
  | some ds => (ds[1]?).isSome

/-- A row that `parse_flights` skips via the `except AttributeError`
branch: the pre-`try` accesses succeed but the gate cell or the carrier
span is missing. -/
def skipRow (r : Row) : Bool :=
  r.firstDivText.isSome && bubbleShape r.bubbleDivs &&
    (!r.gateTd.isSome || !r.spanText.isSome)

/-- Lines 71-75: read the bubble's second time text if the bubble exists
(`find_all("div")[1]` raises `IndexError` on a short bubble). -/
def getActualTxt : Option (List Txt) → Except PyErr (Option Txt)
  | none => .ok none
  | some ds =>
    match ds[1]? with
    | none => .error .indexErr
    | some t => .ok (some t)

/-- Lines 87-94: the actual timestamp, computed only when the second time
text is truthy; a non-empty unparsable text raises `ValueError`. -/
def actualTsOf (y : Int) (ord : Nat) : Option Txt → Except PyErr (Option Int)
  | none => .ok none
  | some .empty => .ok none
  | some .bad => .error .valueErr
  | some (.time t) => .ok (some (utcMinutes y ord t))

/-- One iteration of the `for row in table` loop of `parse_flights`
(lines 67-113).  The state is the current date-label ordinal (mutated by
the `delayed` branch, line 96-97) and the accumulated records. -/
def parseRow (delayed : Bool) (y : Int) (st : Nat × List Flight) (r : Row) :
    Except PyErr (Nat × List Flight) :=
  match r.firstDivText with
  | none => .error .attrErr
  | some schedTxt =>
    match getActualTxt r.bubbleDivs with
    | .error e => .error e
    | .ok actualTxt =>
      match r.gateTd with
      | none => .ok st
      | some gate =>
        match r.spanText with
        | none => .ok st
        | some airline =>
          match r.tds[2]? with
          | none => .error .indexErr
          | some srcDest =>
            match r.tds[1]? with
            | none => .error .indexErr
            | some flightNum =>
              match actualTsOf y st.1 actualTxt with
              | .error e => .error e
              | .ok actualTs =>
                let ord' := if delayed then (st.1 + 364) % 365 else st.1
                match schedTxt with
                | .time t =>
                  .ok (ord', st.2 ++
                    [⟨some gate, some airline, some srcDest, some flightNum,
                      actualTs, some (utcMinutes y ord' t),
                      some (if r.classes.contains "departure" then "departure" else "arrival")⟩])
                | _ => .error .valueErr

/-- The whole `for` loop, threading the date ordinal and accumulator. -/
def parseLoop (delayed : Bool) (y : Int) :
    Nat × List Flight → List Row → Except PyErr (Nat × List Flight)
  | st, [] => .ok st
  | st, r :: rs =>
    match parseRow delayed y st r with
    | .error e => .error e
    | .ok st' => parseLoop delayed y st' rs

/-- `parse_flights(table, date, delayed)` with the ambient
`datetime.now().year` made an explicit argument `nowYear`.  `dateOrd` is
the month-day ordinal of the `date` argument's `"%a %b %d"` label. -/
def parse_flights (table : List Row) (dateOrd : Nat) (delayed : Bool) (nowYear : Int) :
    Except PyErr (List Flight) :=
  match parseLoop delayed nowYear (dateOrd, []) table with
  | .error e => .error e
  | .ok st => .ok st.2

/-- The ambient wall clock at which `parse_flights` runs: the value of
`datetime.now()` observed during the call. -/
structure Now where
  year : Int
  month : Nat
  day : Nat
  minute : Nat
deriving DecidableEq, Repr

/-- `parse_flights` as actually invoked: the ambient clock is read inside
the function (`.replace(year=datetime.now().year)` on lines 92 and 102). -/
def parse_flights_at (table : List Row) (dateOrd : Nat) (delayed : Bool) (now : Now) :
    Except PyErr (List Flight) :=
  parse_flights table dateOrd delayed now.year

/-- The record `parse_flights` emits for a well-formed row when the actual
time was composed on ordinal `aOrd` and the scheduled time on `sOrd`. -/
def mkFlight (y : Int) (aOrd sOrd : Nat) (r : Row) : Flight :=
  ⟨r.gateTd, r.spanText, r.tds[2]?, r.tds[1]?,
    (rowActualClock r).map (utcMinutes y aOrd),
    (rowSchedClock r).map (utcMinutes y sOrd),
    some (if r.classes.contains "departure" then "departure" else "arrival")⟩

/-- Closed form of the loop on a table of well-formed rows: the actual
time of each row uses the ordinal before that row's decrement, the
scheduled time the ordinal after it, and the decrement accumulates. -/
def flightsFrom (delayed : Bool) (y : Int) : Nat → List Row → List Flight
  | _, [] => []
  | ord, r :: rs =>
    let ord' := if delayed then (ord + 364) % 365 else ord
    mkFlight y ord ord' r :: flightsFrom delayed y ord' rs

/-- The persisted collection: a list of documents. -/
abbrev Store := List Flight

/-- `$set {"actual_timestamp": a}` on one document. -/
def setActual (d : Flight) (a : Int) : Flight :=
  ⟨d.gate, d.airline, d.src_dest, d.flight_num, some a, d.scheduled_timestamp, d.type⟩

/-- `conn.update_one(query, {"$set": {"actual_timestamp": a}})` where the
query matches `flight_num = n` and `scheduled_timestamp = s`: the first
matching document is updated in place; the reported `modified_count` is 0
when the document already carries the value. -/
def update_one (n : String) (s : Int) (a : Int) : Store → Store × Nat
  | [] => ([], 0)
  | d :: rest =>
    if d.flight_num = some n ∧ d.scheduled_timestamp = some s then
      (setActual d a :: rest, if d.actual_timestamp = some a then 0 else 1)
    else
      let res := update_one n s a rest
      (d :: res.1, res.2)

/-- Reads a dictionary key; a missing key raises `KeyError`. -/
def keyOf {α : Type} : Option α → Except PyErr α
  | some x => .ok x
  | none => .error .keyErr

/-- `update_flights(conn, delayed_flights)` (lines 145-158): for each
record, query by `(scheduled_timestamp, flight_num)` and `$set` its
`actual_timestamp`, summing `modified_count`.  Returns the final store
and the summed count reported in the log message. -/
def update_flights (fs : List Flight) (store : Store) : Except PyErr (Store × Nat) :=
  match fs with
  | [] => .ok (store, 0)
  | f :: rest =>
    match keyOf f.scheduled_timestamp with
    | .error e => .error e
    | .ok s =>
      match keyOf f.flight_num with
      | .error e => .error e
      | .ok n =>
        match keyOf f.actual_timestamp with
        | .error e => .error e
        | .ok a =>
          let res := update_one n s a store
          match update_flights rest res.1 with
          | .error e => .error e
          | .ok res' => .ok (res'.1, res.2 + res'.2)

/-- `conn.insert_many(flights)`: appends every document and reports the
ids of the inserted documents. -/
def insert_many (store : Store) (docs : List Flight) : Store × List Nat :=
  (store ++ docs, (List.range docs.length).map (store.length + ·))

/-- `add_flights(conn, flights)` (lines 118-131): one `insert_many` call;
the logged count is `len(results.inserted_ids)`.  Returns the new store
and that count. -/
def add_flights (store : Store) (flights : List Flight) : Store × Nat :=
  let res := insert_many store flights
  (res.1, res.2.length)

/-! ## Concrete rows and documents used in witnesses and counterexamples -/

/-- A well-formed departure row with no delay bubble, scheduled 11:00 AM. -/
def rowPlain : Row :=
  ⟨some (.time ⟨11, 0, false⟩), none, some "10", some "WestJet",
    ["11:00 AM", "WS197", "Calgary"], ["departure"]⟩

/-- A well-formed arrival row scheduled 11:45 PM whose delay bubble shows
12:30 AM. -/
def rowBubble : Row :=
  ⟨some (.time ⟨11, 45, true⟩), some [.empty, .time ⟨12, 30, false⟩], some "5",
    some "Air Canada", ["11:45 PM", "AC305", "Vancouver"], ["arrival"]⟩

/-- A record carrying no `actual_timestamp` key. -/
def flightNoActual : Flight :=
  ⟨some "4", some "Air Canada", some "Vancouver", some "AC8240", none, some 100, some "arrival"⟩

/-- A record carrying all three keys `update_flights` reads. -/
def flightFull : Flight :=
  ⟨some "10", some "WestJet", some "Calgary", some "WS197", some 9, some 5, some "departure"⟩

/-- A stored document that does not match `flightFull`'s key. -/
def docOther : Flight :=
  ⟨some "7", some "WestJet", some "Calgary", some "WS197", none, some 77, some "departure"⟩

/-- A stored document matching `flightFull`'s key, actual time unset. -/
def docMatch : Flight :=
  ⟨some "10", some "WestJet", some "Calgary", some "WS197", none, some 5, some "departure"⟩

/-! ## Store-side helper lemmas -/

lemma update_one_no_match (n : String) (s a : Int) :
    ∀ store : Store,
      (∀ d ∈ store, ¬(d.flight_num = some n ∧ d.scheduled_timestamp = some s)) →
      update_one n s a store = (store, 0) := by
  intro store h
  induction store with
  | nil => rfl
  | cons d rest ih =>
    rw [update_one, if_neg (h d (by simp))]
    rw [ih (fun d' hd' => h d' (by simp [hd']))]

lemma update_one_front (n : String) (s a : Int) (pre tail : Store)
    (hpre : ∀ d ∈ pre, ¬(d.flight_num = some n ∧ d.scheduled_timestamp = some s)) :
    update_one n s a (pre ++ tail) =
      (pre ++ (update_one n s a tail).1, (update_one n s a tail).2) := by
  induction pre with
  | nil => simp
  | cons d rest ih =>
    rw [List.cons_append, update_one, if_neg (hpre d (by simp))]
    rw [ih (fun d' hd' => hpre d' (by simp [hd']))]
    simp

/-! ## C7 -/

/-- C7: `add_flights` inserts one document per record with no
de-duplication: the new store is the old one with the whole input list
appended, the reported count is the input length, and rerunning over the
same list appends the very same records again. -/
theorem c7_add_flights_at_least_once (store : Store) (flights : List Flight) :
    add_flights store flights = (store ++ flights, flights.length) ∧
    add_flights (add_flights store flights).1 flights =
      (store ++ flights ++ flights, flights.length) := by
  constructor <;> simp [add_flights, insert_many]

/-! ## C6 -/

/-- C6 counterexample: a delayed record carrying no `actual_timestamp`
key makes `update_flights` raise `KeyError` on `flight["actual_timestamp"]`
even against an empty store, refuting "does not raise" for every list of
delayed records. -/
theorem c6_missing_actual_raises :
    update_flights [flightNoActual] [] = .error .keyErr := rfl

/-- C6 amended: for every list of delayed records each carrying its
`flight_num`, `scheduled_timestamp` and `actual_timestamp` keys, running
`update_flights` against a store with no matching record (in particular an
empty store) raises nothing, processes every record, leaves the store
unchanged and reports a count of 0. -/
theorem c6_no_match_ok (fs : List Flight) (store : Store)
    (hfields : ∀ f ∈ fs, f.scheduled_timestamp.isSome = true ∧
      f.flight_num.isSome = true ∧ f.actual_timestamp.isSome = true)
    (hnomatch : ∀ f ∈ fs, ∀ d ∈ store,
      ¬(d.flight_num = f.flight_num ∧ d.scheduled_timestamp = f.scheduled_timestamp)) :
    update_flights fs store = .ok (store, 0) := by
  induction fs with
  | nil => rfl
  | cons f rest ih =>
    obtain ⟨hs, hn, ha⟩ := hfields f (by simp)
    obtain ⟨s, hs'⟩ := Option.isSome_iff_exists.mp hs
    obtain ⟨n, hn'⟩ := Option.isSome_iff_exists.mp hn
    obtain ⟨a, ha'⟩ := Option.isSome_iff_exists.mp ha
    have hone : update_one n s a store = (store, 0) := by
      refine update_one_no_match n s a store (fun d hd hc => ?_)
      exact hnomatch f (by simp) d hd (by rw [hn', hs']; exact hc)
    have hrest : update_flights rest store = .ok (store, 0) :=
      ih (fun g hg => hfields g (by simp [hg]))
        (fun g hg => hnomatch g (by simp [hg]))
    rw [update_flights, hs', hn', ha']
    simp only [keyOf, hone, hrest]

/-- C6 witness: a concrete record against a concrete non-matching store. -/
theorem c6_no_match_ok_witness :
    update_flights [flightFull] [docOther] = .ok ([docOther], 0) :=
  c6_no_match_ok [flightFull] [docOther] (by decide) (by decide)

/-! ## C5 -/

/-- C5: the update is a pure set of `actual_timestamp` keyed on
`(flight_num, scheduled_timestamp)`: if the first matching stored
document carries a different actual time, the first application modifies
exactly that document and reports 1, and applying the same intent again
reports 0 newly-modified and leaves the store exactly as after the first
application. -/
theorem c5_update_idempotent (f d : Flight) (pre post : Store) (n : String) (s a : Int)
    (hfn : f.flight_num = some n) (hs : f.scheduled_timestamp = some s)
    (ha : f.actual_timestamp = some a)
    (hpre : ∀ d' ∈ pre, ¬(d'.flight_num = some n ∧ d'.scheduled_timestamp = some s))
    (hd : d.flight_num = some n ∧ d.scheduled_timestamp = some s)
    (hdiff : d.actual_timestamp ≠ some a) :
    update_flights [f] (pre ++ d :: post) = .ok (pre ++ setActual d a :: post, 1) ∧
    update_flights [f] (pre ++ setActual d a :: post) =
      .ok (pre ++ setActual d a :: post, 0) := by
  have hone1 : update_one n s a (pre ++ d :: post) =
      (pre ++ setActual d a :: post, 1) := by
    rw [update_one_front n s a pre (d :: post) hpre, update_one, if_pos hd,
      if_neg hdiff]
  have hd2 : (setActual d a).flight_num = some n ∧
      (setActual d a).scheduled_timestamp = some s := by
    simpa [setActual] using hd
  have hone2 : update_one n s a (pre ++ setActual d a :: post) =
      (pre ++ setActual d a :: post, 0) := by
    rw [update_one_front n s a pre (setActual d a :: post) hpre, update_one,
      if_pos hd2, if_pos (by simp [setActual])]
    rfl
  constructor
  · rw [update_flights, hs, hfn, ha]
    simp only [keyOf, hone1, update_flights]
  · rw [update_flights, hs, hfn, ha]
    simp only [keyOf, hone2, update_flights]

/-- C5 witness: concrete intent, concrete store of one non-matching and
one matching document. -/
theorem c5_update_idempotent_witness :
    update_flights [flightFull] [docOther, docMatch] =
      .ok ([docOther, setActual docMatch 9], 1) ∧
    update_flights [flightFull] [docOther, setActual docMatch 9] =
      .ok ([docOther, setActual docMatch 9], 0) :=
  c5_update_idempotent flightFull docMatch [docOther] [] "WS197" 5 9
    rfl rfl rfl (by decide) (by decide) (by decide)

/-! ## C1 -/

/-- C1 (code evaluation at the failing input): a delayed-board parse run
with the ambient year 2024 and date argument Jan 01 composes the row's
scheduled label Dec 31, and stamps it with the *current* year
(`.replace(year=datetime.now().year)`, line 102): the resolved scheduled
instant falls in year 2024, not in 2023 as the year-inference design
requires near the year boundary. -/
theorem c1_code_uses_current_year :
    parse_flights [rowPlain] 0 true 2024 = .ok [mkFlight 2024 0 364 rowPlain] ∧
    (mkFlight 2024 0 364 rowPlain).scheduled_timestamp.map tsYear = some 2024 ∧
    (mkFlight 2024 0 364 rowPlain).scheduled_timestamp.map tsYear ≠ some 2023 := by
  refine ⟨by decide, by decide, by decide⟩

/-! ## C2 -/

/-- C2 (code evaluation at the failing input): on the prior-day board
parsed with date argument Jan 01 and ambient year 2024, the row scheduled
11:45 PM (label Dec 31 after the decrement) with bubble time 12:30 AM
gets an actual instant 525555 minutes (almost a year) *before* its
scheduled instant, because both labels are stamped with the same year;
the claim requires the actual instant never to precede the scheduled
one. -/
theorem c2_code_actual_before_scheduled :
    parse_flights [rowBubble] 0 true 2024 = .ok [mkFlight 2024 0 364 rowBubble] ∧
    (mkFlight 2024 0 364 rowBubble).actual_timestamp.getD 0 <
      (mkFlight 2024 0 364 rowBubble).scheduled_timestamp.getD 0 ∧
    (mkFlight 2024 0 364 rowBubble).scheduled_timestamp.getD 0 -
      (mkFlight 2024 0 364 rowBubble).actual_timestamp.getD 0 = 525555 := by
  refine ⟨by decide, by decide, by decide⟩

/-! ## C8 -/

/-- C8 counterexample: the same table, date argument and delayed flag
evaluated under ambient clocks in different years give different record
lists, so `parse_flights` is not a function of its explicit inputs
alone. -/
theorem c8_clock_dependence :
    parse_flights_at [rowPlain] 0 false ⟨2023, 6, 1, 0⟩ ≠
      parse_flights_at [rowPlain] 0 false ⟨2024, 6, 1, 0⟩ := by
  decide

/-- C8 amended: `parse_flights` is deterministic given its explicit
inputs *plus* the ambient clock's calendar year, which it reads via
`datetime.now().year`: two evaluations whose instants share a year return
equal record lists. -/
theorem c8_deterministic_given_year (table : List Row) (ord : Nat) (delayed : Bool)
    (n₁ n₂ : Now) (h : n₁.year = n₂.year) :
    parse_flights_at table ord delayed n₁ = parse_flights_at table ord delayed n₂ := by
  unfold parse_flights_at
  rw [h]

/-- C8 amended witness: two instants months apart in the same year. -/
theorem c8_deterministic_given_year_witness :
    parse_flights_at [rowPlain] 3 false ⟨2024, 1, 2, 30⟩ =
      parse_flights_at [rowPlain] 3 false ⟨2024, 7, 9, 845⟩ :=
  c8_deterministic_given_year [rowPlain] 3 false ⟨2024, 1, 2, 30⟩ ⟨2024, 7, 9, 845⟩ rfl

/-! ## Parse-side helper lemmas -/

lemma tds_get_isSome (l : List String) (h : 3 ≤ l.length) :
    (l[2]?).isSome = true ∧ (l[1]?).isSome = true := by
  rcases l with _ | ⟨a, _ | ⟨b, _ | ⟨c, rest⟩⟩⟩ <;> simp_all

lemma tds_len_of_get2 (l : List String) (c : String) (h : l[2]? = some c) :
    3 ≤ l.length := by
  rcases l with _ | ⟨x, _ | ⟨y, _ | ⟨z, rest⟩⟩⟩ <;> simp_all

lemma parseRow_wf (delayed : Bool) (y : Int) (ord : Nat) (acc : List Flight) (r : Row)
    (hwf : wfRow r = true) :
    parseRow delayed y (ord, acc) r =
      .ok (if delayed then (ord + 364) % 365 else ord,
        acc ++ [mkFlight y ord (if delayed then (ord + 364) % 365 else ord) r]) := by
  obtain ⟨fd, bd, gt, sp, tds, cls⟩ := r
  simp only [wfRow, Bool.and_eq_true, decide_eq_true_eq] at hwf
  obtain ⟨⟨⟨⟨h1, h2⟩, h3⟩, h4⟩, h5⟩ := hwf
  obtain ⟨g, hg⟩ := Option.isSome_iff_exists.mp h3
  obtain ⟨s, hsp⟩ := Option.isSome_iff_exists.mp h4
  subst hg hsp
  cases fd with
  | none => simp [rowSchedClock] at h1
  | some txt =>
    cases txt with
    | empty => simp [rowSchedClock] at h1
    | bad => simp [rowSchedClock] at h1
    | time t =>
      rcases tds with _ | ⟨a, _ | ⟨b, _ | ⟨c, rest⟩⟩⟩
      · simp at h5
      · simp at h5
      · simp at h5
      · cases bd with
        | none =>
          simp [parseRow, getActualTxt, actualTsOf, mkFlight, rowActualClock,
            rowSchedClock, List.get?]
        | some ds =>
          cases hds : ds[1]? with
          | none => simp [bubbleOk, hds] at h2
          | some u =>
            cases u with
            | empty =>
              simp [parseRow, getActualTxt, hds, actualTsOf, mkFlight,
                rowActualClock, rowSchedClock, List.get?]
            | bad => simp [bubbleOk, hds] at h2
            | time v =>
              simp [parseRow, getActualTxt, hds, actualTsOf, mkFlight,
                rowActualClock, rowSchedClock, List.get?]

lemma parseRow_skip (delayed : Bool) (y : Int) (st : Nat × List Flight) (r : Row)
    (hsk : skipRow r = true) : parseRow delayed y st r = .ok st := by
  obtain ⟨fd, bd, gt, sp, tds, cls⟩ := r
  simp only [skipRow, Bool.and_eq_true, Bool.or_eq_true, Bool.not_eq_true'] at hsk
  obtain ⟨⟨h1, h2⟩, h3⟩ := hsk
  obtain ⟨txt, hfd⟩ := Option.isSome_iff_exists.mp h1
  subst hfd
  cases bd with
  | none =>
    cases gt with
    | none => simp [parseRow, getActualTxt]
    | some g =>
      cases sp with
      | none => simp [parseRow, getActualTxt]
      | some s => simp_all
  | some ds =>
    simp only [bubbleShape] at h2
    obtain ⟨u, hu⟩ := Option.isSome_iff_exists.mp h2
    cases gt with
    | none => simp [parseRow, getActualTxt, hu]
    | some g =>
      cases sp with
      | none => simp [parseRow, getActualTxt, hu]
      | some s => simp_all

lemma parseLoop_wf (delayed : Bool) (y : Int) :
    ∀ (rows : List Row) (ord : Nat) (acc : List Flight),
      (∀ r ∈ rows, wfRow r = true) →
      ∃ ordF, parseLoop delayed y (ord, acc) rows =
        .ok (ordF, acc ++ flightsFrom delayed y ord rows) := by
  intro rows
  induction rows with
  | nil =>
    intro ord acc _
    exact ⟨ord, by simp [parseLoop, flightsFrom]⟩
  | cons r rs ih =>
    intro ord acc hwf
    have hstep := parseRow_wf delayed y ord acc r (hwf r (by simp))
    obtain ⟨ordF, hF⟩ := ih (if delayed then (ord + 364) % 365 else ord)
      (acc ++ [mkFlight y ord (if delayed then (ord + 364) % 365 else ord) r])
      (fun r' hr' => hwf r' (by simp [hr']))
    refine ⟨ordF, ?_⟩
    have hred : parseLoop delayed y (ord, acc) (r :: rs) =
        parseLoop delayed y (if delayed then (ord + 364) % 365 else ord,
          acc ++ [mkFlight y ord (if delayed then (ord + 364) % 365 else ord) r]) rs := by
      rw [parseLoop, hstep]
    rw [hred, hF]
    simp [flightsFrom]

lemma parseLoop_append (delayed : Bool) (y : Int) :
    ∀ (l₁ l₂ : List Row) (st : Nat × List Flight),
      parseLoop delayed y st (l₁ ++ l₂) =
        match parseLoop delayed y st l₁ with
        | .error e => .error e
        | .ok st' => parseLoop delayed y st' l₂ := by
  intro l₁
  induction l₁ with
  | nil => intro l₂ st; rfl
  | cons r rs ih =>
    intro l₂ st
    rw [List.cons_append, parseLoop, parseLoop]
    cases parseRow delayed y st r with
    | error e => rfl
    | ok st' => exact ih l₂ st'

lemma flightsFrom_length (delayed : Bool) (y : Int) :
    ∀ (rows : List Row) (ord : Nat),
      (flightsFrom delayed y ord rows).length = rows.length := by
  intro rows
  induction rows with
  | nil => intro ord; rfl
  | cons r rs ih => intro ord; simp [flightsFrom, ih]

lemma flightsFrom_get (y : Int) :
    ∀ (rows : List Row) (ord : Nat), ord < 365 →
      ∀ (i : Nat) (hi : i < rows.length) (hf : i < (flightsFrom true y ord rows).length),
        (flightsFrom true y ord rows).get ⟨i, hf⟩ =
          mkFlight y ((ord + 364 * i) % 365) ((ord + 364 * (i + 1)) % 365)
            (rows.get ⟨i, hi⟩) := by
  intro rows
  induction rows with
  | nil => intro ord _ i hi; simp at hi
  | cons r rs ih =>
    intro ord h365 i hi hf
    cases i with
    | zero =>
      have h1 : (ord + 364 * (0 + 1)) % 365 = (ord + 364) % 365 := by omega
      simp [flightsFrom, h1, Nat.mod_eq_of_lt h365]
    | succ j =>
      have hij : j < rs.length := by simpa using hi
      have hjf : j < (flightsFrom true y ((ord + 364) % 365) rs).length := by
        rw [flightsFrom_length]; exact hij
      have hrec := ih ((ord + 364) % 365) (Nat.mod_lt _ (by norm_num)) j hij hjf
      have hm1 : ((ord + 364) % 365 + 364 * j) % 365 = (ord + 364 * (j + 1)) % 365 := by
        omega
      have hm2 : ((ord + 364) % 365 + 364 * (j + 1)) % 365 =
          (ord + 364 * (j + 1 + 1)) % 365 := by
        omega
      have hcons : (flightsFrom true y ord (r :: rs)).get ⟨j + 1, hf⟩ =
          (flightsFrom true y ((ord + 364) % 365) rs).get ⟨j, hjf⟩ := by
        simp [flightsFrom]
      rw [hcons, hrec, hm1, hm2]
      simp [flightsFrom]

/-! ## C9 -/

/-- C9: with `delayed=True` the per-row decrement of the `date` variable
accumulates: on a table of well-formed rows, the `i`-th record (0-based)
composes its scheduled time on the naive date `i+1` days before the
supplied date (cyclically in the year-less label calendar) and its actual
time, when the bubble carries one, on the date `i` days before — the
rows do not uniformly use the prior day. -/
theorem c9_delayed_date_accumulates (table : List Row) (ord : Nat) (y : Int)
    (h365 : ord < 365) (hwf : ∀ r ∈ table, wfRow r = true) :
    ∃ fs, parse_flights table ord true y = .ok fs ∧ fs.length = table.length ∧
      ∀ (i : Nat) (hi : i < table.length) (hf : i < fs.length),
        (fs.get ⟨i, hf⟩).scheduled_timestamp =
          (rowSchedClock (table.get ⟨i, hi⟩)).map
            (utcMinutes y ((ord + 364 * (i + 1)) % 365)) ∧
        (fs.get ⟨i, hf⟩).actual_timestamp =
          (rowActualClock (table.get ⟨i, hi⟩)).map
            (utcMinutes y ((ord + 364 * i) % 365)) := by
  obtain ⟨ordF, hF⟩ := parseLoop_wf true y table ord [] hwf
  refine ⟨flightsFrom true y ord table, ?_, flightsFrom_length true y table ord, ?_⟩
  · rw [parse_flights, hF]
    simp
  · intro i hi hf
    rw [flightsFrom_get y table ord h365 i hi hf]
    simp [mkFlight]

/-- C9 witness: a two-row delayed board parsed with date argument Jan 02
(ordinal 1): the first record's scheduled date is Jan 01, the second's is
Dec 31 of the label calendar. -/
theorem c9_delayed_date_accumulates_witness :
    ∃ fs, parse_flights [rowPlain, rowBubble] 1 true 2024 = .ok fs ∧
      fs.length = [rowPlain, rowBubble].length ∧
      ∀ (i : Nat) (hi : i < [rowPlain, rowBubble].length) (hf : i < fs.length),
        (fs.get ⟨i, hf⟩).scheduled_timestamp =
          (rowSchedClock ([rowPlain, rowBubble].get ⟨i, hi⟩)).map
            (utcMinutes 2024 ((1 + 364 * (i + 1)) % 365)) ∧
        (fs.get ⟨i, hf⟩).actual_timestamp =
          (rowActualClock ([rowPlain, rowBubble].get ⟨i, hi⟩)).map
            (utcMinutes 2024 ((1 + 364 * i) % 365)) :=
  c9_delayed_date_accumulates [rowPlain, rowBubble] 1 2024 (by decide) (by decide)

/-! ## C3 -/

/-- A malformed row of the too-few-cells shape: only two `td` cells, so
the route lookup `row.find_all("td")[2]` raises `IndexError`. -/
def rowShort : Row :=
  ⟨some (.time ⟨9, 0, false⟩), none, some "3", some "United",
    ["9:00 AM", "UA5488"], ["departure"]⟩

/-- A malformed row of the missing-element shape: no `ft-gate` cell, so
the gate lookup raises `AttributeError`, which the loop catches. -/
def rowNoGate : Row :=
  ⟨some (.time ⟨8, 0, false⟩), none, none, some "Delta",
    ["8:00 AM", "DL100", "Seattle"], ["arrival"]⟩

/-- C3 counterexample: a two-row table whose second row is missing its
route cell (too few cells) makes `parse_flights` raise `IndexError` and
abort the whole batch instead of returning the other row's record — the
per-row isolation does not cover this shape of malformation. -/
theorem c3_too_few_cells_aborts :
    parse_flights [rowPlain, rowShort] 0 false 2024 = .error .indexErr := rfl

/-- C3 amended: per-row isolation holds for the missing-element shape
(`AttributeError` on the gate cell or carrier span): a table whose one
malformed row is of that shape yields exactly the other rows' records, no
partial record for the bad row, and no exception; but a row with too few
cells raises `IndexError` and aborts the batch. -/
theorem c3_missing_element_skipped (pre post : List Row) (bad : Row) (ord : Nat)
    (delayed : Bool) (y : Int)
    (hwf : ∀ r ∈ pre ++ post, wfRow r = true) (hbad : skipRow bad = true) :
    parse_flights (pre ++ bad :: post) ord delayed y =
      parse_flights (pre ++ post) ord delayed y ∧
    ∃ fs, parse_flights (pre ++ post) ord delayed y = .ok fs ∧
      fs.length = pre.length + post.length := by
  have hwfpre : ∀ r ∈ pre, wfRow r = true :=
    fun r hr => hwf r (List.mem_append_left _ hr)
  obtain ⟨o1, h1⟩ := parseLoop_wf delayed y pre ord [] hwfpre
  constructor
  · have hL : parseLoop delayed y (ord, []) (pre ++ bad :: post) =
        parseLoop delayed y (o1, [] ++ flightsFrom delayed y ord pre) (bad :: post) := by
      rw [parseLoop_append, h1]
    have hR : parseLoop delayed y (ord, []) (pre ++ post) =
        parseLoop delayed y (o1, [] ++ flightsFrom delayed y ord pre) post := by
      rw [parseLoop_append, h1]
    have hskip : parseLoop delayed y (o1, [] ++ flightsFrom delayed y ord pre)
          (bad :: post) =
        parseLoop delayed y (o1, [] ++ flightsFrom delayed y ord pre) post := by
      rw [parseLoop, parseRow_skip delayed y _ bad hbad]
    rw [parse_flights, parse_flights, hL, hskip, hR]
  · obtain ⟨oF, hFull⟩ := parseLoop_wf delayed y (pre ++ post) ord [] hwf
    refine ⟨flightsFrom delayed y ord (pre ++ post), ?_, ?_⟩
    · rw [parse_flights, hFull]
      simp
    · rw [flightsFrom_length]
      simp

/-- C3 amended witness: a three-row board whose middle row is missing its
gate cell yields the two well-formed rows' records. -/
theorem c3_missing_element_skipped_witness :
    parse_flights [rowPlain, rowNoGate, rowBubble] 4 false 2024 =
      parse_flights [rowPlain, rowBubble] 4 false 2024 ∧
    ∃ fs, parse_flights [rowPlain, rowBubble] 4 false 2024 = .ok fs ∧
      fs.length = [rowPlain].length + [rowBubble].length :=
  c3_missing_element_skipped [rowPlain] [rowBubble] rowNoGate 4 false 2024
    (by decide) (by decide)

lemma bubbleOk_of (bd : Option (List Txt)) (y : Int) (ord : Nat) (atxt : Option Txt)
    (ats : Option Int) (hga : getActualTxt bd = .ok atxt)
    (hats : actualTsOf y ord atxt = .ok ats) : bubbleOk bd = true := by
  cases bd with
  | none => rfl
  | some ds =>
    cases hds : ds[1]? with
    | none => simp [getActualTxt, hds] at hga
    | some u =>
      simp only [getActualTxt, hds, Except.ok.injEq] at hga
      subst hga
      cases u with
      | empty => simp [bubbleOk, hds]
      | bad => simp [actualTsOf] at hats
      | time v => simp [bubbleOk, hds]

lemma actual_ts_eq (fd : Option Txt) (bd : Option (List Txt)) (gt sp : Option String)
    (tds cls : List String) (y : Int) (ord : Nat) (atxt : Option Txt) (ats : Option Int)
    (hga : getActualTxt bd = .ok atxt) (hats : actualTsOf y ord atxt = .ok ats) :
    ats = (rowActualClock ⟨fd, bd, gt, sp, tds, cls⟩).map (utcMinutes y ord) := by
  cases bd with
  | none =>
    simp only [getActualTxt, Except.ok.injEq] at hga
    subst hga
    simp only [actualTsOf, Except.ok.injEq] at hats
    subst hats
    simp [rowActualClock]
  | some ds =>
    cases hds : ds[1]? with
    | none => simp [getActualTxt, hds] at hga
    | some u =>
      simp only [getActualTxt, hds, Except.ok.injEq] at hga
      subst hga
      cases u with
      | empty =>
        simp only [actualTsOf, Except.ok.injEq] at hats
        subst hats
        simp [rowActualClock, hds]
      | bad => simp [actualTsOf] at hats
      | time v =>
        simp only [actualTsOf, Except.ok.injEq] at hats
        subst hats
        simp [rowActualClock, hds]

lemma parseRow_ok_cases (delayed : Bool) (y : Int) (ord : Nat) (acc : List Flight)
    (r : Row) (out : Nat × List Flight) (h : parseRow delayed y (ord, acc) r = .ok out) :
    out.2 = acc ∨ (wfRow r = true ∧
      out.2 = acc ++ [mkFlight y ord (if delayed then (ord + 364) % 365 else ord) r]) := by
  obtain ⟨fd, bd, gt, sp, tds, cls⟩ := r
  cases fd with
  | none => simp [parseRow] at h
  | some txt =>
    cases hga : getActualTxt bd with
    | error e => simp [parseRow, hga] at h
    | ok atxt =>
      cases gt with
      | none =>
        left
        simp only [parseRow, hga, Except.ok.injEq] at h
        subst h
        rfl
      | some g =>
        cases sp with
        | none =>
          left
          simp only [parseRow, hga, Except.ok.injEq] at h
          subst h
          rfl
        | some s =>
          cases htd2 : tds[2]? with
          | none => simp [parseRow, hga, htd2] at h
          | some srcDest =>
            cases htd1 : tds[1]? with
            | none => simp [parseRow, hga, htd2, htd1] at h
            | some fn =>
              cases hats : actualTsOf y ord atxt with
              | error e => simp [parseRow, hga, htd2, htd1, hats] at h
              | ok ats =>
                cases txt with
                | empty => simp [parseRow, hga, htd2, htd1, hats] at h
                | bad => simp [parseRow, hga, htd2, htd1, hats] at h
                | time t =>
                  right
                  simp only [parseRow, hga, htd2, htd1, hats, Except.ok.injEq] at h
                  subst h
                  constructor
                  · simp only [wfRow, Bool.and_eq_true, decide_eq_true_eq]
                    refine ⟨⟨⟨⟨?_, ?_⟩, ?_⟩, ?_⟩, ?_⟩
                    · simp [rowSchedClock]
                    · exact bubbleOk_of bd y ord atxt ats hga hats
                    · simp
                    · simp
                    · exact tds_len_of_get2 tds srcDest htd2
                  · have hats' := actual_ts_eq (some (Txt.time t)) bd (some g) (some s)
                      tds cls y ord atxt ats hga hats
                    simp [mkFlight, rowSchedClock, htd2, htd1, hats']

lemma parseLoop_mem (delayed : Bool) (y : Int) :
    ∀ (rows : List Row) (st out : Nat × List Flight),
      parseLoop delayed y st rows = .ok out →
      ∀ f ∈ out.2, f ∈ st.2 ∨ ∃ r ∈ rows, wfRow r = true ∧
        ∃ a b : Nat, f = mkFlight y a b r := by
  intro rows
  induction rows with
  | nil =>
    intro st out h f hf
    left
    rw [parseLoop] at h
    injection h with h2
    subst h2
    exact hf
  | cons r rs ih =>
    intro st out h f hf
    rw [parseLoop] at h
    cases hstep : parseRow delayed y st r with
    | error e => rw [hstep] at h; cases h
    | ok st' =>
      rw [hstep] at h
      rcases ih st' out h f hf with hin | ⟨r', hr', hwf', a, b, hfeq⟩
      · obtain ⟨ord0, acc0⟩ := st
        rcases parseRow_ok_cases delayed y ord0 acc0 r st' hstep with h2 | ⟨hwf, h2⟩
        · left
          rw [h2] at hin
          exact hin
        · rw [h2] at hin
          rcases List.mem_append.mp hin with h3 | h3
          · left; exact h3
          · right
            refine ⟨r, by simp, hwf, ord0,
              if delayed then (ord0 + 364) % 365 else ord0, ?_⟩
            simpa using h3
      · right
        exact ⟨r', by simp [hr'], hwf', a, b, hfeq⟩

lemma rowActual_isSome_eq (r : Row) (hb : bubbleOk r.bubbleDivs = true) :
    (rowActualClock r).isSome = rowHasSecondTime r := by
  obtain ⟨fd, bd, gt, sp, tds, cls⟩ := r
  cases bd with
  | none => rfl
  | some ds =>
    cases hds : ds[1]? with
    | none => simp [bubbleOk, hds] at hb
    | some u =>
      cases u <;> simp_all [bubbleOk, rowActualClock, rowHasSecondTime, hds]

/-! ## C4 -/

/-- C4: every record emitted by `parse_flights` has `scheduled_timestamp`
present, and its generating row (exhibited by matching gate and carrier
fields) carried a delay bubble with a truthy second time text exactly
when the record's `actual_timestamp` is present; a bubble-less row yields
a record with the key absent (`none`), not null. -/
theorem c4_timestamps_presence (table : List Row) (ord : Nat) (delayed : Bool)
    (y : Int) (fs : List Flight) (h : parse_flights table ord delayed y = .ok fs) :
    ∀ f ∈ fs, f.scheduled_timestamp.isSome = true ∧
      ∃ r ∈ table, f.actual_timestamp.isSome = rowHasSecondTime r ∧
        f.gate = r.gateTd ∧ f.airline = r.spanText := by
  intro f hf
  rw [parse_flights] at h
  cases hl : parseLoop delayed y (ord, []) table with
  | error e => rw [hl] at h; cases h
  | ok st =>
    rw [hl] at h
    injection h with h2
    subst h2
    rcases parseLoop_mem delayed y table (ord, []) st hl f hf with h0 | ⟨r, hr, hwf, a, b, hfeq⟩
    · simp at h0
    · subst hfeq
      simp only [wfRow, Bool.and_eq_true, decide_eq_true_eq] at hwf
      obtain ⟨⟨⟨⟨h1, hb⟩, h3⟩, h4⟩, h5⟩ := hwf
      obtain ⟨t, ht⟩ := Option.isSome_iff_exists.mp h1
      refine ⟨by simp [mkFlight, ht], r, hr, ?_, rfl, rfl⟩
      have hiso : ((rowActualClock r).map (utcMinutes y a)).isSome =
          (rowActualClock r).isSome := by
        cases rowActualClock r <;> rfl
      calc (mkFlight y a b r).actual_timestamp.isSome
          = (rowActualClock r).isSome := hiso
        _ = rowHasSecondTime r := rowActual_isSome_eq r hb

/-- C4 witness: a one-row board with a delay bubble; the emitted record
carries both timestamps and the bubble test is positive. -/
theorem c4_timestamps_presence_witness :
    (mkFlight 2024 3 3 rowBubble).scheduled_timestamp.isSome = true ∧
    ∃ r ∈ [rowBubble], (mkFlight 2024 3 3 rowBubble).actual_timestamp.isSome =
        rowHasSecondTime r ∧ (mkFlight 2024 3 3 rowBubble).gate = r.gateTd ∧
        (mkFlight 2024 3 3 rowBubble).airline = r.spanText :=
  c4_timestamps_presence [rowBubble] 3 false 2024 [mkFlight 2024 3 3 rowBubble]
    (by decide) (mkFlight 2024 3 3 rowBubble) (by simp)

/-! ## C10 -/

/-- C10: every record emitted by `parse_flights` carries all four of
gate, airline, src_dest and flight_num — in particular the gate key,
optional in the data model, is never absent from an emitted record. -/
theorem c10_required_fields_present (table : List Row) (ord : Nat) (delayed : Bool)
    (y : Int) (fs : List Flight) (h : parse_flights table ord delayed y = .ok fs) :
    ∀ f ∈ fs, f.gate.isSome = true ∧ f.airline.isSome = true ∧
      f.src_dest.isSome = true ∧ f.flight_num.isSome = true := by
  intro f hf
  rw [parse_flights] at h
  cases hl : parseLoop delayed y (ord, []) table with
  | error e => rw [hl] at h; cases h
  | ok st =>
    rw [hl] at h
    injection h with h2
    subst h2
    rcases parseLoop_mem delayed y table (ord, []) st hl f hf with h0 | ⟨r, hr, hwf, a, b, hfeq⟩
    · simp at h0
    · subst hfeq
      simp only [wfRow, Bool.and_eq_true, decide_eq_true_eq] at hwf
      obtain ⟨⟨⟨⟨h1, hb⟩, h3⟩, h4⟩, h5⟩ := hwf
      obtain ⟨hg2, hg1⟩ := tds_get_isSome r.tds h5
      exact ⟨by simpa [mkFlight] using h3, by simpa [mkFlight] using h4,
        by simpa [mkFlight] using hg2, by simpa [mkFlight] using hg1⟩

/-- C10 witness: the record of a concrete well-formed row carries all
four required fields. -/
theorem c10_required_fields_present_witness :
    (mkFlight 2024 7 7 rowPlain).gate.isSome = true ∧
    (mkFlight 2024 7 7 rowPlain).airline.isSome = true ∧
    (mkFlight 2024 7 7 rowPlain).src_dest.isSome = true ∧
    (mkFlight 2024 7 7 rowPlain).flight_num.isSome = true :=
  c10_required_fields_present [rowPlain] 7 false 2024 [mkFlight 2024 7 7 rowPlain]
    (by decide) (mkFlight 2024 7 7 rowPlain) (by simp)
